import Mathlib

/-!
Verification of the SQL safety/execution core of the self-service-analytics
repository: the query validator (`api/services/query_validator.py`), the
execution gateway (`api/core/database.py` `execute_query`), the generation
orchestrator (`api/services/llm_service.py` `generate_sql`), and the rate
limiter (`api/utils/rate_limiter.py`, `api/utils/cache.py`).

Python strings are embedded as `List Char` (SQL text is ASCII); Python string
methods (`.upper()`, `.strip()`, `in`, `.startswith`, `.count`) are embedded
below as executable functions on `List Char`.  The regular expressions used by
the source are fixed concrete patterns, each embedded as a dedicated scanner.
External collaborators (PostgreSQL, Redis, the completion service) are
modelled as explicit state / oracle parameters; raising a Python exception is
modelled as `Except.error`.
-/

namespace SSA

/-- Python whitespace for `str.strip` and the regex class `\s`:
space, tab, newline, carriage return, vertical tab, form feed. -/
def isSpaceChar (c : Char) : Bool :=
  decide (c.toNat = 32 ∨ c.toNat = 9 ∨ c.toNat = 10 ∨ c.toNat = 13 ∨
          c.toNat = 11 ∨ c.toNat = 12)

/-- The regex class `\d` (ASCII digits). -/
def isDigitChar (c : Char) : Bool :=
  decide (48 ≤ c.toNat ∧ c.toNat ≤ 57)

/-- The 26 lower-to-upper ASCII pairs realising Python `str.upper` on ASCII. -/
def upperPairs : List (Char × Char) :=
  [('a', 'A'), ('b', 'B'), ('c', 'C'), ('d', 'D'), ('e', 'E'), ('f', 'F'),
   ('g', 'G'), ('h', 'H'), ('i', 'I'), ('j', 'J'), ('k', 'K'), ('l', 'L'),
   ('m', 'M'), ('n', 'N'), ('o', 'O'), ('p', 'P'), ('q', 'Q'), ('r', 'R'),
   ('s', 'S'), ('t', 'T'), ('u', 'U'), ('v', 'V'), ('w', 'W'), ('x', 'X'),
   ('y', 'Y'), ('z', 'Z')]

/-- Python `str.upper` on one ASCII character. -/
def pyUpperChar (c : Char) : Char :=
  match upperPairs.find? (fun p => p.1 == c) with
  | some p => p.2
  | none => c

/-- Python `str.upper` (restricted to ASCII, which covers the SQL domain). -/
def upperL (l : List Char) : List Char := l.map pyUpperChar

/-- Python `str.strip()` with no argument: remove leading and trailing
whitespace. -/
def pyStrip (l : List Char) : List Char :=
  ((l.dropWhile isSpaceChar).reverse.dropWhile isSpaceChar).reverse

/-- Python substring containment `pat in s`. -/
def pyContains (s pat : List Char) : Bool :=
  match s with
  | [] => pat.isPrefixOf []
  | _ :: cs => pat.isPrefixOf s || pyContains cs pat

/-- The ASCII digit character for a value below ten (used to embed Python
f-string interpolation of integers). -/
def digitChar : Nat → Char
  | 0 => '0' | 1 => '1' | 2 => '2' | 3 => '3' | 4 => '4'
  | 5 => '5' | 6 => '6' | 7 => '7' | 8 => '8' | _ => '9'

/-- Decimal rendering worker: structural recursion on `fuel`, which callers
choose above `n` (each division by ten strictly decreases `n`, so the fuel is
never exhausted). -/
def natDigitsAux : Nat → Nat → List Char
  | 0, _ => []
  | fuel + 1, n =>
    if n < 10 then [digitChar n]
    else natDigitsAux fuel (n / 10) ++ [digitChar (n % 10)]

/-- Decimal digit list of a natural number (Python `str(n)` for `n ≥ 0`). -/
def natDigits (n : Nat) : List Char := natDigitsAux (n + 1) n

/-- Python `str(n)` as a `String`. -/
def natStr (n : Nat) : String := String.mk (natDigits n)

/-- Numeric value of a digit list, as read left to right (Python `int(s)`). -/
def digitsVal (ds : List Char) : Nat :=
  ds.foldl (fun a c => a * 10 + (c.toNat - 48)) 0

/-- The literal characters of the keyword `LIMIT`. -/
def LIMITl : List Char := ['L', 'I', 'M', 'I', 'T']

/-- Tail of the regex `LIMIT\s+(\d+)` after the literal `LIMIT`: one or more
whitespace characters followed by one or more digits; yields the captured
number. -/
def parseWsDigits (l : List Char) : Option Nat :=
  let ws := l.takeWhile isSpaceChar
  if ws.isEmpty then none
  else
    let r1 := l.dropWhile isSpaceChar
    let ds := r1.takeWhile isDigitChar
    if ds.isEmpty then none else some (digitsVal ds)

/-- `re.search(r'LIMIT\s+(\d+)', s)`: scan left to right for the first
position where the full pattern matches and return the captured value. -/
def parseLimitAux : List Char → Option Nat
  | [] => none
  | c :: cs =>
    if LIMITl.isPrefixOf (c :: cs) then
      match parseWsDigits (List.drop 5 (c :: cs)) with
      | some v => some v
      | none => parseLimitAux cs
    else parseLimitAux cs

/-- `re.search(r'LIMIT\s+(\d+)', query_upper)` where `query_upper` is the
uppercased query, as in `_validate_query_limits` of
`api/services/query_validator.py`. -/
def parseLimitVal (q : String) : Option Nat := parseLimitAux (upperL q.toList)

/-- The regex class `[a-zA-Z_]` (identifier start). -/
def identStartChar (c : Char) : Bool := c.isAlpha || c == '_'

/-- The regex class `[a-zA-Z0-9_]` (identifier continuation). -/
def identChar (c : Char) : Bool := c.isAlphanum || c == '_'

/-- After a `FROM`/`JOIN` keyword: match
`\s+([a-zA-Z_][a-zA-Z0-9_]*\.[a-zA-Z_][a-zA-Z0-9_]*)` and return the captured
`schema.table` characters together with the unconsumed rest. -/
def matchDottedRef (l : List Char) : Option (List Char × List Char) :=
  let ws := l.takeWhile isSpaceChar
  if ws.isEmpty then none
  else
    match l.dropWhile isSpaceChar with
    | [] => none
    | c :: cs =>
      if identStartChar c then
        let t1 := cs.takeWhile identChar
        match cs.dropWhile identChar with
        | '.' :: r3 =>
          match r3 with
          | [] => none
          | d :: ds =>
            if identStartChar d then
              some ((c :: t1) ++ '.' :: d :: ds.takeWhile identChar,
                    ds.dropWhile identChar)
            else none
        | _ => none
      else none

/-- `re.findall(kw + r'\s+([a-zA-Z_][a-zA-Z0-9_]*\.[a-zA-Z_][a-zA-Z0-9_]*)',
s, re.IGNORECASE)`: scan left to right; at a case-insensitive occurrence of
the keyword try the dotted-reference tail, collect the capture and continue
after the match, otherwise advance one character.  `fuel` bounds the
recursion (callers pass the input length, which the scan never exceeds since
every step consumes at least one character). -/
def scanKwAux (kw : List Char) : Nat → List Char → List (List Char)
  | 0, _ => []
  | _ + 1, [] => []
  | fuel + 1, c :: cs =>
    if kw.isPrefixOf (upperL (c :: cs)) then
      match matchDottedRef (List.drop kw.length (c :: cs)) with
      | some (cap, rest) => cap :: scanKwAux kw fuel rest
      | none => scanKwAux kw fuel cs
    else scanKwAux kw fuel cs

/-- The literal characters of `FROM`. -/
def FROMl : List Char := ['F', 'R', 'O', 'M']

/-- The literal characters of `JOIN`. -/
def JOINl : List Char := ['J', 'O', 'I', 'N']

/-- All `schema.table` references captured after `FROM` and after `JOIN`
(`_validate_schema_access` in `api/services/query_validator.py`, lines
99-107: FROM matches first, then JOIN matches). -/
def tableRefs (q : String) : List String :=
  (scanKwAux FROMl q.toList.length q.toList ++
   scanKwAux JOINl q.toList.length q.toList).map String.mk

/-- An ASCII single quote (apostrophe) as a string, for embedding the
source's quoted message interpolations. -/
def sq : String := String.singleton (Char.ofNat 39)

/-- One `A.*B`-shaped injection regex applied with `re.search`: a match
exists iff some occurrence of `a` is followed (with no intervening newline,
since `.` does not match `\n`) by some occurrence of `b`. -/
def dotStarMatch (s a b : List Char) : Bool :=
  (List.range (s.length + 1)).any fun i =>
    a.isPrefixOf (s.drop i) &&
      (List.range (s.length + 1)).any fun j =>
        decide (i + a.length ≤ j) && b.isPrefixOf (s.drop j) &&
          ((s.drop (i + a.length)).take (j - (i + a.length))).all
            (fun c => !(c == Char.ofNat 10))

/-- The `injection_patterns` of `QueryValidator.__init__`, each of the shape
`A.*B`, given as the pair of literal pieces `(A, B)`:
`';.*--`, `';.*#`, `';.*/\*`, `UNION.*SELECT`, `OR.*1=1`, `OR.*'1'='1'`,
`AND.*1=1`, `AND.*'1'='1'`. -/
def injectionPairs : List (List Char × List Char) :=
  [(Char.ofNat 39 :: [';'], ['-', '-']),
   (Char.ofNat 39 :: [';'], ['#']),
   (Char.ofNat 39 :: [';'], ['/', '*']),
   (['U', 'N', 'I', 'O', 'N'], ['S', 'E', 'L', 'E', 'C', 'T']),
   (['O', 'R'], ['1', '=', '1']),
   (['O', 'R'], [Char.ofNat 39, '1', Char.ofNat 39, '=',
                 Char.ofNat 39, '1', Char.ofNat 39]),
   (['A', 'N', 'D'], ['1', '=', '1']),
   (['A', 'N', 'D'], [Char.ofNat 39, '1', Char.ofNat 39, '=',
                      Char.ofNat 39, '1', Char.ofNat 39])]

/-- The loop over `self.injection_patterns` in `validate_query`: does any
pattern match the (already uppercased) query? -/
def injectionDetected (s : List Char) : Bool :=
  injectionPairs.any fun p => dotStarMatch s p.1 p.2

/-- `self.dangerous_keywords` of `QueryValidator.__init__`. -/
def dangerous_keywords : List String :=
  ["DROP", "DELETE", "UPDATE", "INSERT", "CREATE", "ALTER",
   "TRUNCATE", "GRANT", "REVOKE", "EXECUTE", "EXEC"]

/-- The error message `f"Operation '{keyword}' is not allowed"`. -/
def operationMsg (k : String) : String :=
  "Operation " ++ sq ++ k ++ sq ++ " is not allowed"

/-- The error message `f"Access to table '{table_ref}' is not allowed"`. -/
def accessMsg (r : String) : String :=
  "Access to table " ++ sq ++ r ++ sq ++ " is not allowed"

/-- Result dictionary of the helper validation stages:
`{"is_valid": ..., "error": ...}`. -/
structure StageResult where
  is_valid : Bool
  error : Option String
  deriving Repr, DecidableEq

/-- The configuration consumed by the validator: `settings.READONLY_TABLES`
and `settings.MAX_RESULT_ROWS`. -/
structure Settings where
  readonly_tables : List String
  max_result_rows : Nat
  deriving Repr, DecidableEq

/-- `QueryValidator._validate_schema_access`: every captured `schema.table`
reference must be in the read-only table list; the first offending reference
is reported. -/
def validate_schema_access (st : Settings) (sql_query : String) : StageResult :=
  match (tableRefs sql_query).find? (fun r => !(st.readonly_tables.contains r)) with
  | some r => ⟨false, some (accessMsg r)⟩
  | none => ⟨true, none⟩

/-- `QueryValidator._validate_query_structure`: must start with `SELECT`
(after stripping), contain `FROM`, and have balanced parentheses. -/
def validate_query_structure (sql_query : String) : StageResult :=
  if !(("SELECT".toList).isPrefixOf (pyStrip (upperL sql_query.toList))) then
    ⟨false, some "Query must be a SELECT statement"⟩
  else if !(pyContains (upperL sql_query.toList) FROMl) then
    ⟨false, some "Query must contain FROM clause"⟩
  else if !((upperL sql_query.toList).count '(' ==
            (upperL sql_query.toList).count ')') then
    ⟨false, some "Unbalanced parentheses in query"⟩
  else ⟨true, none⟩

/-- `QueryValidator._validate_query_limits`: warn when no `LIMIT` substring
is present, or when the first `LIMIT\s+(\d+)` value exceeds
`settings.MAX_RESULT_ROWS`. -/
def validate_query_limits (st : Settings) (sql_query : String) : StageResult :=
  if !(pyContains (upperL sql_query.toList) LIMITl) then
    ⟨false, some "Query should include LIMIT clause for large result sets"⟩
  else
    match parseLimitAux (upperL sql_query.toList) with
    | some v =>
      if st.max_result_rows < v then
        ⟨false, some ("LIMIT value (" ++ natStr v ++
                      ") exceeds maximum allowed (" ++
                      natStr st.max_result_rows ++ ")")⟩
      else ⟨true, none⟩
    | none => ⟨true, none⟩

/-- Result dictionary of `validate_query`:
`{"is_valid": ..., "error": ..., "warnings": [...]}`. -/
structure ValidationResult where
  is_valid : Bool
  error : Option String
  warnings : List String
  deriving Repr, DecidableEq

/-- `QueryValidator.validate_query`: empty check, denylist scan, injection
pattern scan, schema/table allow-list check (each rejecting), then the
structure and limit stages whose failures only append warnings. -/
def validate_query (st : Settings) (sql_query : String) : ValidationResult :=
  if (pyStrip sql_query.toList).isEmpty then
    ⟨false, some "Query cannot be empty", []⟩
  else
    match dangerous_keywords.find?
        (fun k => pyContains (pyStrip (upperL sql_query.toList)) k.toList) with
    | some k => ⟨false, some (operationMsg k), []⟩
    | none =>
      if injectionDetected (pyStrip (upperL sql_query.toList)) then
        ⟨false, some "Query contains potentially malicious patterns", []⟩
      else
        match validate_schema_access st sql_query with
        | ⟨false, e⟩ => ⟨false, e, []⟩
        | ⟨true, _⟩ =>
          ⟨true, none,
           (validate_query_structure sql_query).error.toList ++
             (validate_query_limits st sql_query).error.toList⟩

/-- One result row, as the dict produced by `dict(zip(columns, row))` in
`execute_query` (an ordered column-to-value mapping). -/
abbrev Row : Type := List (String × String)

/-- The success dictionary returned by `execute_query`
(`api/core/database.py`, lines 144-157); `success` is always `True` there. -/
structure DbSuccess where
  success : Bool
  data : List Row
  row_count : Nat
  columns : List String
  message : Option String
  deriving DecidableEq

/-- Outcome of running one SQL text on the external database: a row set with
its columns (`result.returns_rows` true), a rowless completion
(`returns_rows` false), or a raised database error. -/
inductive DbOutcome where
  | rows (data : List Row) (columns : List String)
  | noRows
  | failure (msg : String)

/-- The external database, modelled as a map from the submitted SQL text to
its outcome. -/
structure Database where
  run : String → DbOutcome

/-- `dangerous_keywords` local to `execute_query` in `api/core/database.py`
(shorter than the validator's list). -/
def dangerous_keywords_db : List String :=
  ["DROP", "DELETE", "UPDATE", "INSERT", "CREATE", "ALTER", "TRUNCATE"]

/-- The SQL text `execute_query` submits to the database: the stripped query,
with `f" LIMIT {limit}"` appended exactly when `limit` is truthy and `LIMIT`
is not already a substring of the uppercased stripped query
(`api/core/database.py`, lines 129-131). -/
def execFinalQuery (query : String) (limit : Option Nat) : List Char :=
  match limit with
  | some n =>
    if !(n == 0) && !(pyContains (upperL (pyStrip query.toList)) LIMITl) then
      pyStrip query.toList ++ ' ' :: (LIMITl ++ ' ' :: natDigits n)
    else pyStrip query.toList
  | none => pyStrip query.toList

/-- `execute_query(query, limit)` of `api/core/database.py`: strip; raise on
empty; raise on a denylisted keyword; append `f" LIMIT {limit}"` only when
`limit` is truthy and `LIMIT` is not already a substring of the uppercased
query; run the final text on the database; convert a database exception into
a raised `ValueError` (modelled as `Except.error`). -/
def execute_query (db : Database) (query : String) (limit : Option Nat) :
    Except String DbSuccess :=
  if (pyStrip query.toList).isEmpty then Except.error "Query cannot be empty"
  else
    match dangerous_keywords_db.find?
        (fun k => pyContains (upperL (pyStrip query.toList)) k.toList) with
    | some k => Except.error ("Operation " ++ k ++ " is not allowed")
    | none =>
      match db.run (String.mk (execFinalQuery query limit)) with
      | DbOutcome.rows data cols =>
        Except.ok ⟨true, data, data.length, cols, none⟩
      | DbOutcome.noRows =>
        Except.ok ⟨true, [], 0, [],
                   some "Query executed successfully (no results)"⟩
      | DbOutcome.failure msg =>
        Except.error ("Query execution failed: " ++ msg)

/-- A database holding one result set, honouring a SQL `LIMIT n` clause of
the submitted text by returning at most `n` of its rows (standard SQL
semantics of the external engine). -/
def limitDb (data : List Row) (cols : List String) : Database :=
  ⟨fun q => DbOutcome.rows (data.take ((parseLimitVal q).getD data.length)) cols⟩

/-- A database engine honours `LIMIT`: when the submitted text carries a
parsable `LIMIT n` clause, at most `n` rows come back. -/
def HonorsLimit (db : Database) : Prop :=
  ∀ q data cols n, db.run q = DbOutcome.rows data cols →
    parseLimitVal q = some n → data.length ≤ n

/-- One cache-store entry: a string value with its absolute expiry instant
(set by `SETEX` as now + ttl). -/
structure CEntry where
  value : String
  expireAt : Nat
  deriving Repr, DecidableEq

/-- The cache store (`api/utils/cache.py`), keyed by string. -/
abbrev CacheSt : Type := List (String × CEntry)

/-- `get_cache` at time `now`: the stored value while the entry is unexpired,
otherwise a miss. -/
def cacheGet (now : Nat) (st : CacheSt) (k : String) : Option String :=
  match st.find? (fun p => p.1 == k) with
  | some p => if now < p.2.expireAt then some p.2.value else none
  | none => none

/-- `set_cache` (Redis `SETEX`) at time `now`: store the value with expiry
`now + expire`, replacing any previous entry for the key. -/
def cacheSet (now : Nat) (st : CacheSt) (k v : String) (expire : Nat) : CacheSt :=
  (k, ⟨v, now + expire⟩) :: st.filter (fun p => !(p.1 == k))

/-- Python truthiness of `cached_result` in `generate_sql`: `None` and the
empty string are falsy. -/
def truthyOpt (o : Option String) : Bool :=
  match o with
  | some s => !s.isEmpty
  | none => false

/-- Result of one `generate_sql` call: the returned SQL text, the cache store
afterwards, and how many calls went to the external completion service. -/
structure GenResult where
  sql : String
  state : CacheSt
  llm_calls : Nat
  deriving DecidableEq

/-- The conversation-history read performed on a cache miss when a
conversation id is present (`_get_conversation_history`, which is a
`get_cache` of `f"conversation:{conversation_id}"`; the stored serialized
history is kept opaque). -/
def genHistory (now : Nat) (st : CacheSt) (conversation_id : Option String) :
    Option String :=
  match conversation_id with
  | some cid => cacheGet now st ("conversation:" ++ cid)
  | none => none

/-- `LLMService.generate_sql` (`api/services/llm_service.py`, lines 66-116):
compute `cache_key = f"sql_generation:{hash(user_query)}"` (the salted Python
`hash` is the parameter `h`); a truthy cached value returns immediately with
no external call; otherwise read the conversation history for the prompt,
call the completion service once (the oracle `llm`, applied to the fetched
history and the user text), cache the result for 3600 seconds and return it.
No conversation entry is written: `_save_conversation_history` has no caller
in the repository. -/
def generate_sql (h : String → Int) (llm : Option String → String → String)
    (now : Nat) (st : CacheSt) (user_query : String)
    (conversation_id : Option String) : GenResult :=
  if truthyOpt (cacheGet now st ("sql_generation:" ++ toString (h user_query))) then
    ⟨(cacheGet now st ("sql_generation:" ++ toString (h user_query))).getD "",
     st, 0⟩
  else
    ⟨llm (genHistory now st conversation_id) user_query,
     cacheSet now st ("sql_generation:" ++ toString (h user_query))
       (llm (genHistory now st conversation_id) user_query) 3600,
     1⟩

/-- The truncation performed by `LLMService._save_conversation_history`
(lines 143-156): keep only the last 10 messages (`messages[-10:]`) before
storing with a 3600-second expiry.  The helper exists but is never invoked
anywhere in the repository. -/
def save_conversation_history_trunc (messages : List (String × String)) :
    List (String × String) :=
  if 10 < messages.length then messages.drop (messages.length - 10)
  else messages

/-- One Redis entry backing a rate-limit counter: the integer value and the
absolute expiry instant, if a TTL has been set (`INCR` on a fresh key creates
it with no TTL). -/
structure RedisEntry where
  value : Nat
  expireAt : Option Nat
  deriving Repr, DecidableEq

/-- Lazy expiry: the entry as visible at time `now` (gone once `now` reaches
`expireAt`). -/
def getLive (st : Option RedisEntry) (now : Nat) : Option RedisEntry :=
  match st with
  | some e =>
    match e.expireAt with
    | some t => if now < t then some e else none
    | none => some e
  | none => none

/-- Redis `INCR`: increment the live entry, or create a fresh one with value
1 and no TTL; returns the post-increment count. -/
def redisIncr (now : Nat) (st : Option RedisEntry) : Nat × Option RedisEntry :=
  match getLive st now with
  | some e => (e.value + 1, some ⟨e.value + 1, e.expireAt⟩)
  | none => (1, some ⟨1, none⟩)

/-- Redis `EXPIRE key secs`: set the live entry's expiry to `now + secs`. -/
def redisExpire (now secs : Nat) (st : Option RedisEntry) : Option RedisEntry :=
  match getLive st now with
  | some e => some ⟨e.value, some (now + secs)⟩
  | none => none

/-- `increment_rate_limit` (`api/utils/cache.py`, lines 99-109): `INCR` the
per-user counter, then unconditionally `EXPIRE` it for 60 seconds; returns
the post-increment count.  The state is that user's counter entry. -/
def increment_rate_limit (now : Nat) (st : Option RedisEntry) :
    Nat × Option RedisEntry :=
  ((redisIncr now st).1, redisExpire now 60 (redisIncr now st).2)

/-- `check_rate_limit` (`api/utils/rate_limiter.py`, lines 14-29) with the
configured `settings.RATE_LIMIT_PER_MINUTE` as `limit`: increment, then
return `False` exactly when the post-increment count exceeds the limit. -/
def check_rate_limit (limit : Nat) (now : Nat) (st : Option RedisEntry) :
    Bool × Option RedisEntry :=
  (!(decide (limit < (increment_rate_limit now st).1)),
   (increment_rate_limit now st).2)

/-- The counter state after `k` consecutive `increment_rate_limit` calls at
time `now`, starting from an absent key. -/
def rlIter (now : Nat) : Nat → Option RedisEntry
  | 0 => none
  | k + 1 => (increment_rate_limit now (rlIter now k)).2

/-! ### Helper lemmas about the string primitives -/

theorem isSpace_pyUpperChar (c : Char) :
    isSpaceChar (pyUpperChar c) = isSpaceChar c := by
  unfold pyUpperChar
  cases hf : upperPairs.find? (fun p => p.1 == c) with
  | none => rfl
  | some p =>
    have hmem := List.mem_of_find?_eq_some hf
    have hbeq : p.1 = c := by
      have := List.find?_some hf
      exact beq_iff_eq.mp this
    have hsp : isSpaceChar p.2 = isSpaceChar p.1 := by
      fin_cases hmem <;> rfl
    rw [hsp, hbeq]

theorem pyStrip_upperL (l : List Char) :
    pyStrip (upperL l) = upperL (pyStrip l) := by
  have hfun : (isSpaceChar ∘ pyUpperChar) = isSpaceChar :=
    funext isSpace_pyUpperChar
  unfold pyStrip upperL
  rw [List.dropWhile_map, hfun, ← List.map_reverse, List.dropWhile_map, hfun,
    ← List.map_reverse]

theorem pyContains_ne_nil {s pat : List Char} (hp : pat ≠ [])
    (h : pyContains s pat = true) : s ≠ [] := by
  intro hs
  subst hs
  unfold pyContains at h
  cases pat with
  | nil => exact hp rfl
  | cons c cs => simp [List.isPrefixOf] at h

theorem isDigit_digitChar (d : Nat) : isDigitChar (digitChar d) = true := by
  rcases d with _ | _ | _ | _ | _ | _ | _ | _ | _ | d <;> rfl

theorem digitChar_toNat {d : Nat} (h : d < 10) :
    (digitChar d).toNat = 48 + d := by
  interval_cases d <;> rfl

theorem digit_not_space {c : Char} (h : isDigitChar c = true) :
    isSpaceChar c = false := by
  simp only [isDigitChar, decide_eq_true_eq] at h
  simp only [isSpaceChar, decide_eq_false_iff_not]
  omega

theorem pyUpperChar_digit {c : Char} (h : isDigitChar c = true) :
    pyUpperChar c = c := by
  unfold pyUpperChar
  cases hf : upperPairs.find? (fun p => p.1 == c) with
  | none => rfl
  | some p =>
    exfalso
    have hmem := List.mem_of_find?_eq_some hf
    have hbeq : p.1 = c := by
      have := List.find?_some hf
      exact beq_iff_eq.mp this
    have hlow : 97 ≤ p.1.toNat ∧ p.1.toNat ≤ 122 := by fin_cases hmem <;> decide
    simp only [isDigitChar, decide_eq_true_eq] at h
    rw [hbeq] at hlow
    omega

theorem natDigitsAux_irrel (n : Nat) : ∀ f1 f2, n < f1 → n < f2 →
    natDigitsAux f1 n = natDigitsAux f2 n := by
  induction n using Nat.strong_induction_on with
  | _ n ih =>
    intro f1 f2 h1 h2
    cases f1 with
    | zero => omega
    | succ g1 =>
      cases f2 with
      | zero => omega
      | succ g2 =>
        by_cases h10 : n < 10
        · simp [natDigitsAux, h10]
        · have hdn : n / 10 < n := Nat.div_lt_self (by omega) (by omega)
          simp only [natDigitsAux, h10, if_false]
          rw [ih (n / 10) hdn g1 g2 (by omega) (by omega)]

theorem natDigits_eq_step (n : Nat) (h : ¬ n < 10) :
    natDigits n = natDigits (n / 10) ++ [digitChar (n % 10)] := by
  have hdiv : n / 10 < n := Nat.div_lt_self (by omega) (by omega)
  show natDigitsAux (n + 1) n = natDigitsAux (n / 10 + 1) (n / 10) ++ _
  have hn1 : natDigitsAux (n + 1) n =
      if n < 10 then [digitChar n]
      else natDigitsAux n (n / 10) ++ [digitChar (n % 10)] := by
    cases n with
    | zero => omega
    | succ m => rfl
  rw [hn1, if_neg h,
    natDigitsAux_irrel (n / 10) n (n / 10 + 1) (by omega) (by omega)]

theorem natDigits_base (n : Nat) (h : n < 10) : natDigits n = [digitChar n] := by
  unfold natDigits
  cases n with
  | zero => rfl
  | succ m => simp [natDigitsAux, h]

theorem natDigits_ne_nil (n : Nat) : natDigits n ≠ [] := by
  by_cases h : n < 10
  · rw [natDigits_base n h]
    simp
  · rw [natDigits_eq_step n h]
    simp

theorem natDigits_digits (n : Nat) : ∀ c ∈ natDigits n, isDigitChar c = true := by
  induction n using Nat.strong_induction_on with
  | _ n ih =>
    by_cases h : n < 10
    · rw [natDigits_base n h]
      intro c hc
      simp only [List.mem_singleton] at hc
      subst hc
      exact isDigit_digitChar n
    · rw [natDigits_eq_step n h]
      intro c hc
      rw [List.mem_append] at hc
      rcases hc with hc | hc
      · exact ih (n / 10) (Nat.div_lt_self (by omega) (by omega)) c hc
      · simp only [List.mem_singleton] at hc
        subst hc
        exact isDigit_digitChar (n % 10)

theorem digitsVal_natDigits (n : Nat) : digitsVal (natDigits n) = n := by
  induction n using Nat.strong_induction_on with
  | _ n ih =>
    by_cases h : n < 10
    · rw [natDigits_base n h]
      simp only [digitsVal, List.foldl_cons, List.foldl_nil]
      rw [digitChar_toNat h]
      omega
    · rw [natDigits_eq_step n h]
      have hih := ih (n / 10) (Nat.div_lt_self (by omega) (by omega))
      simp only [digitsVal, List.foldl_append, List.foldl_cons, List.foldl_nil]
      simp only [digitsVal] at hih
      rw [hih, digitChar_toNat (Nat.mod_lt n (by omega))]
      omega

theorem limit_prefix_boundary (x b : List Char)
    (h : LIMITl.isPrefixOf (x ++ ' ' :: b) = true) :
    LIMITl.isPrefixOf x = true := by
  match x with
  | [] => simp [LIMITl, List.isPrefixOf] at h
  | [c1] => simp [LIMITl, List.isPrefixOf] at h
  | [c1, c2] => simp [LIMITl, List.isPrefixOf] at h
  | [c1, c2, c3] => simp [LIMITl, List.isPrefixOf] at h
  | [c1, c2, c3, c4] => simp [LIMITl, List.isPrefixOf] at h
  | c1 :: c2 :: c3 :: c4 :: c5 :: rest =>
    simp [LIMITl, List.isPrefixOf] at h ⊢
    exact h

theorem parseLimitAux_append (a b : List Char)
    (ha : pyContains a LIMITl = false) :
    parseLimitAux (a ++ ' ' :: b) = parseLimitAux (' ' :: b) := by
  induction a with
  | nil => rfl
  | cons c a' ih =>
    have ha2 : (LIMITl.isPrefixOf (c :: a') = false) ∧
        pyContains a' LIMITl = false := by
      unfold pyContains at ha
      simpa using ha
    have hpre : LIMITl.isPrefixOf ((c :: a') ++ ' ' :: b) = false := by
      cases h2 : LIMITl.isPrefixOf ((c :: a') ++ ' ' :: b) with
      | false => rfl
      | true =>
        have := limit_prefix_boundary (c :: a') b h2
        rw [this] at ha2
        exact absurd ha2.1 (by simp)
    rw [List.cons_append] at hpre ⊢
    unfold parseLimitAux
    rw [hpre]
    simp only [Bool.false_eq_true, if_false]
    exact ih ha2.2

theorem parseLimitAux_ws_digits (n : Nat) :
    parseLimitAux (' ' :: (LIMITl ++ ' ' :: natDigits n)) = some n := by
  obtain ⟨d, rest, hd⟩ : ∃ d rest, natDigits n = d :: rest := by
    cases h : natDigits n with
    | nil => exact absurd h (natDigits_ne_nil n)
    | cons d rest => exact ⟨d, rest, rfl⟩
  have hdig : ∀ c ∈ natDigits n, isDigitChar c = true := natDigits_digits n
  have hdd : isDigitChar d = true := hdig d (by rw [hd]; simp)
  have htw : List.takeWhile isSpaceChar (' ' :: natDigits n) = [' '] := by
    rw [hd]
    simp [List.takeWhile, digit_not_space hdd]
    rfl
  have hdw : List.dropWhile isSpaceChar (' ' :: natDigits n) = natDigits n := by
    rw [hd]
    simp [List.dropWhile, digit_not_space hdd]
    rfl
  have hds : List.takeWhile isDigitChar (natDigits n) = natDigits n :=
    List.takeWhile_eq_self_iff.mpr hdig
  have hne : (natDigits n).isEmpty = false := by rw [hd]; rfl
  have hpw : parseWsDigits (' ' :: natDigits n) = some n := by
    unfold parseWsDigits
    simp only [htw, hdw, hds, hne]
    simp only [List.isEmpty_cons, Bool.false_eq_true, if_false]
    rw [digitsVal_natDigits]
  show parseLimitAux
    (' ' :: 'L' :: 'I' :: 'M' :: 'I' :: 'T' :: ' ' :: natDigits n) = some n
  have step1 : LIMITl.isPrefixOf
      (' ' :: 'L' :: 'I' :: 'M' :: 'I' :: 'T' :: ' ' :: natDigits n) = false := by
    simp [LIMITl, List.isPrefixOf]
  have step2 : LIMITl.isPrefixOf
      ('L' :: 'I' :: 'M' :: 'I' :: 'T' :: ' ' :: natDigits n) = true := by
    simp [LIMITl, List.isPrefixOf]
  unfold parseLimitAux
  rw [step1]
  simp only [Bool.false_eq_true, if_false]
  unfold parseLimitAux
  rw [step2]
  simp only [if_true]
  have hdrop : List.drop 5
      ('L' :: 'I' :: 'M' :: 'I' :: 'T' :: ' ' :: natDigits n) =
      ' ' :: natDigits n := rfl
  rw [hdrop, hpw]

theorem upperL_limit_tail (n : Nat) :
    upperL (' ' :: (LIMITl ++ ' ' :: natDigits n)) =
      ' ' :: (LIMITl ++ ' ' :: natDigits n) := by
  have hdig : List.map pyUpperChar (natDigits n) = natDigits n := by
    have : List.map pyUpperChar (natDigits n) = List.map id (natDigits n) :=
      List.map_congr_left (fun c hc => pyUpperChar_digit (natDigits_digits n c hc))
    rw [this, List.map_id]
  simp only [upperL, LIMITl, List.map_cons, List.map_append, hdig]
  rfl

theorem parseLimitVal_appended (qs : List Char) (n : Nat)
    (hL : pyContains (upperL qs) LIMITl = false) :
    parseLimitVal (String.mk (qs ++ ' ' :: (LIMITl ++ ' ' :: natDigits n))) =
      some n := by
  unfold parseLimitVal
  have hlist : (String.mk (qs ++ ' ' :: (LIMITl ++ ' ' :: natDigits n))).toList =
      qs ++ ' ' :: (LIMITl ++ ' ' :: natDigits n) := rfl
  rw [hlist]
  unfold upperL
  rw [List.map_append]
  have htail := upperL_limit_tail n
  unfold upperL at htail
  rw [htail]
  have := parseLimitAux_append (List.map pyUpperChar qs)
    (LIMITl ++ ' ' :: natDigits n) (by unfold upperL at hL; exact hL)
  rw [this]
  exact parseLimitAux_ws_digits n

/-! ### Facts about the rate limiter -/

theorem rlIter_succ (now k : Nat) :
    rlIter now (k + 1) = some ⟨k + 1, some (now + 60)⟩ := by
  induction k with
  | zero => rfl
  | succ k ih =>
    have hlt : now < now + 60 := by omega
    show (increment_rate_limit now (rlIter now (k + 1))).2 = _
    rw [ih]
    simp [increment_rate_limit, redisIncr, redisExpire, getLive, hlt]

theorem check_rlIter_count (l now k : Nat) (hk : 1 ≤ k) :
    (check_rate_limit l now (rlIter now (k - 1))).1 = !(decide (l < k)) := by
  cases k with
  | zero => omega
  | succ k =>
    cases k with
    | zero => rfl
    | succ k =>
      have hlt : now < now + 60 := by omega
      show (check_rate_limit l now (rlIter now (k + 1))).1 = _
      rw [rlIter_succ]
      simp [check_rate_limit, increment_rate_limit, redisIncr, redisExpire,
        getLive, hlt]

/-! ### Claims -/

/-- C3 counterexample: the claim says the second increment of a window does
not reset the counter's TTL (it should stay at the instant 60 set by the
first increment at time 0); but `increment_rate_limit` calls `EXPIRE` on
every invocation, so a second increment at time 30 moves the expiry to 90. -/
theorem rate_ttl_reset_counterexample :
    (increment_rate_limit 30 (increment_rate_limit 0 none).2).2 =
      some ⟨2, some 90⟩ ∧
    (increment_rate_limit 30 (increment_rate_limit 0 none).2).2 ≠
      some ⟨2, some 60⟩ := by
  decide

/-- C3 (amended): `increment_rate_limit` sets the 60-second expiry on every
increment, not only the first of a window: after any call at time `now` the
counter's expiry is `now + 60`, whatever the previous state was. -/
theorem increment_always_sets_expiry (now : Nat) (st : Option RedisEntry) :
    (increment_rate_limit now st).2 =
      some ⟨(increment_rate_limit now st).1, some (now + 60)⟩ := by
  cases st with
  | none => rfl
  | some e =>
    cases e with
    | mk v ea =>
      cases ea with
      | none => rfl
      | some t =>
        by_cases h : now < t <;>
          simp [increment_rate_limit, redisIncr, redisExpire, getLive, h]

/-- C9: starting from an absent counter, with a configured limit of at least
one, the `k`-th of `limit + 1` calls inside one window returns `true` for
`k ≤ limit`, the `(limit+1)`-th returns `false`, and a call at `now + 60` —
when the counter set at `now` has expired — returns `true` again. -/
theorem rate_limiter_window (l now k : Nat) (hl : 1 ≤ l) (hk1 : 1 ≤ k)
    (hkl : k ≤ l) :
    (check_rate_limit l now (rlIter now (k - 1))).1 = true ∧
    (check_rate_limit l now (rlIter now l)).1 = false ∧
    (check_rate_limit l (now + 60) (rlIter now (l + 1))).1 = true := by
  refine ⟨?_, ?_, ?_⟩
  · rw [check_rlIter_count l now k hk1]
    simp
    omega
  · have h2 : rlIter now l = rlIter now ((l + 1) - 1) := rfl
    rw [h2, check_rlIter_count l now (l + 1) (by omega)]
    simp
  · rw [rlIter_succ]
    have hnlt : ¬ (now + 60 < now + 60) := by omega
    have hl1 : ¬ (l < 1) := by omega
    simp [check_rate_limit, increment_rate_limit, redisIncr, redisExpire,
      getLive, hnlt, hl1]

/-- Witness for C9 at limit 2: three calls at time 0 give true, true, false,
and a fourth call at time 60 gives true. -/
theorem rate_limiter_window_witness :
    (check_rate_limit 2 0 (rlIter 0 0)).1 = true ∧
    (check_rate_limit 2 0 (rlIter 0 2)).1 = false ∧
    (check_rate_limit 2 60 (rlIter 0 3)).1 = true :=
  rate_limiter_window 2 0 1 (by decide) (by decide) (by decide)

/-- C7: the schema-access stage only checks dotted `schema.table` tokens
captured after `FROM`/`JOIN`; when the query has no such token (all its table
references are bare, unqualified names) the stage accepts it regardless of
the allow-list. -/
theorem schema_stage_accepts_unqualified (st : Settings) (q : String)
    (h : tableRefs q = []) : validate_schema_access st q = ⟨true, none⟩ := by
  unfold validate_schema_access
  rw [h]
  rfl

/-- Witness for C7: `SELECT * FROM users LIMIT 10` yields no dotted
reference, so the stage accepts it although `users` is not in the
allow-list. -/
theorem schema_stage_accepts_unqualified_witness :
    tableRefs "SELECT * FROM users LIMIT 10" = [] ∧
    validate_schema_access ⟨["bi_reports.users"], 10000⟩
      "SELECT * FROM users LIMIT 10" = ⟨true, none⟩ :=
  ⟨by decide, schema_stage_accepts_unqualified _ _ (by decide)⟩

/-- C5: any SQL string containing a denylisted keyword as a case-insensitive
substring (i.e. the keyword occurs in the uppercased, stripped text) is
rejected by `validate_query`, with a contained keyword named in the
`Operation '...' is not allowed` error. -/
theorem denylist_rejects (st : Settings) (q : String)
    (h : ∃ k ∈ dangerous_keywords,
        pyContains (pyStrip (upperL q.toList)) k.toList = true) :
    (validate_query st q).is_valid = false ∧
    ∃ k ∈ dangerous_keywords,
      pyContains (pyStrip (upperL q.toList)) k.toList = true ∧
      (validate_query st q).error = some (operationMsg k) := by
  obtain ⟨k, hkmem, hkc⟩ := h
  have hknil : k.toList ≠ [] := by fin_cases hkmem <;> decide
  have hq1 : pyStrip (upperL q.toList) ≠ [] := pyContains_ne_nil hknil hkc
  have hq2e : (pyStrip q.toList).isEmpty = false := by
    cases hst : pyStrip q.toList with
    | nil =>
      exfalso
      apply hq1
      rw [pyStrip_upperL, hst]
      rfl
    | cons a l => rfl
  have hfind : ∃ k0, dangerous_keywords.find?
      (fun k => pyContains (pyStrip (upperL q.toList)) k.toList) = some k0 := by
    have hs : (dangerous_keywords.find?
        (fun k => pyContains (pyStrip (upperL q.toList)) k.toList)).isSome :=
      List.find?_isSome.mpr ⟨k, hkmem, hkc⟩
    exact Option.isSome_iff_exists.mp hs
  obtain ⟨k0, hk0⟩ := hfind
  have hk0mem := List.mem_of_find?_eq_some hk0
  have hk0p := List.find?_some hk0
  unfold validate_query
  rw [hq2e, hk0]
  exact ⟨rfl, k0, hk0mem, hk0p, rfl⟩

/-- Witness for C5: `drop table users` contains the denylisted `DROP`
(lowercase in the input), and `validate_query` rejects it naming `DROP`. -/
theorem denylist_rejects_witness :
    (∃ k ∈ dangerous_keywords,
      pyContains (pyStrip (upperL "drop table users".toList)) k.toList = true) ∧
    (validate_query ⟨["bi_reports.users"], 10000⟩ "drop table users").is_valid
      = false ∧
    ∃ k ∈ dangerous_keywords,
      pyContains (pyStrip (upperL "drop table users".toList)) k.toList = true ∧
      (validate_query ⟨["bi_reports.users"], 10000⟩ "drop table users").error
        = some (operationMsg k) :=
  ⟨by decide, denylist_rejects ⟨["bi_reports.users"], 10000⟩ "drop table users"
    (by decide)⟩

/-- C6: when the earlier stages pass (non-empty, no denylisted keyword, no
injection pattern) and some captured `schema.table` reference is outside the
allow-list, `validate_query` rejects the whole query, naming an unlisted
reference. -/
theorem allowlist_rejects (st : Settings) (q : String)
    (h1 : (pyStrip q.toList).isEmpty = false)
    (h2 : ∀ k ∈ dangerous_keywords,
        pyContains (pyStrip (upperL q.toList)) k.toList = false)
    (h3 : injectionDetected (pyStrip (upperL q.toList)) = false)
    (h4 : ∃ r ∈ tableRefs q, st.readonly_tables.contains r = false) :
    (validate_query st q).is_valid = false ∧
    ∃ r ∈ tableRefs q, st.readonly_tables.contains r = false ∧
      (validate_query st q).error = some (accessMsg r) := by
  have hnone : dangerous_keywords.find?
      (fun k => pyContains (pyStrip (upperL q.toList)) k.toList) = none := by
    rw [List.find?_eq_none]
    intro x hx
    rw [h2 x hx]
    simp
  have hfind : ∃ r0, (tableRefs q).find?
      (fun r => !(st.readonly_tables.contains r)) = some r0 := by
    obtain ⟨r, hrmem, hrc⟩ := h4
    have hs : ((tableRefs q).find?
        (fun r => !(st.readonly_tables.contains r))).isSome :=
      List.find?_isSome.mpr ⟨r, hrmem, by rw [hrc]; rfl⟩
    exact Option.isSome_iff_exists.mp hs
  obtain ⟨r0, hr0⟩ := hfind
  have hr0mem := List.mem_of_find?_eq_some hr0
  have hr0p : st.readonly_tables.contains r0 = false := by
    have := List.find?_some hr0
    simpa using this
  have hschema : validate_schema_access st q = ⟨false, some (accessMsg r0)⟩ := by
    unfold validate_schema_access
    rw [hr0]
  unfold validate_query
  rw [h1, hnone, h3, hschema]
  exact ⟨rfl, r0, hr0mem, hr0p, rfl⟩

/-- Witness for C6: `SELECT a FROM secret.t1` passes the earlier stages but
references `secret.t1`, which is not in the allow-list, so validation
rejects it. -/
theorem allowlist_rejects_witness :
    (∃ r ∈ tableRefs "SELECT a FROM secret.t1",
      List.contains ["bi_reports.users"] r = false) ∧
    (validate_query ⟨["bi_reports.users"], 10000⟩
      "SELECT a FROM secret.t1").is_valid = false ∧
    ∃ r ∈ tableRefs "SELECT a FROM secret.t1",
      List.contains ["bi_reports.users"] r = false ∧
      (validate_query ⟨["bi_reports.users"], 10000⟩
        "SELECT a FROM secret.t1").error = some (accessMsg r) :=
  ⟨by decide, (allowlist_rejects ⟨["bi_reports.users"], 10000⟩
    "SELECT a FROM secret.t1" (by decide) (by decide) (by decide)
    (by decide)).1,
   (allowlist_rejects ⟨["bi_reports.users"], 10000⟩
    "SELECT a FROM secret.t1" (by decide) (by decide) (by decide)
    (by decide)).2⟩

/-- C10: when every hard stage passes (non-empty, no denylisted keyword, no
injection pattern, all captured references allow-listed), `validate_query`
returns valid with no error, and the structural-sanity and result-size
stages contribute exactly their failure messages as warnings. -/
theorem soft_checks_only_warn (st : Settings) (q : String)
    (h1 : (pyStrip q.toList).isEmpty = false)
    (h2 : ∀ k ∈ dangerous_keywords,
        pyContains (pyStrip (upperL q.toList)) k.toList = false)
    (h3 : injectionDetected (pyStrip (upperL q.toList)) = false)
    (h4 : ∀ r ∈ tableRefs q, st.readonly_tables.contains r = true) :
    validate_query st q =
      ⟨true, none,
       (validate_query_structure q).error.toList ++
         (validate_query_limits st q).error.toList⟩ := by
  have hnone : dangerous_keywords.find?
      (fun k => pyContains (pyStrip (upperL q.toList)) k.toList) = none := by
    rw [List.find?_eq_none]
    intro x hx
    rw [h2 x hx]
    simp
  have hrnone : (tableRefs q).find?
      (fun r => !(st.readonly_tables.contains r)) = none := by
    rw [List.find?_eq_none]
    intro x hx
    rw [h4 x hx]
    simp
  have hschema : validate_schema_access st q = ⟨true, none⟩ := by
    unfold validate_schema_access
    rw [hrnone]
  unfold validate_query
  rw [h1, hnone, h3, hschema]
  rfl

/-- Witness for C10: `(SELECT 1` passes all hard stages, fails the
structural check (does not start with `SELECT`) and the limit check (no
`LIMIT`), yet is reported valid with exactly those two warnings. -/
theorem soft_checks_only_warn_witness :
    validate_query ⟨["bi_reports.users"], 10000⟩ "(SELECT 1" =
      ⟨true, none,
       (validate_query_structure "(SELECT 1").error.toList ++
         (validate_query_limits ⟨["bi_reports.users"], 10000⟩
           "(SELECT 1").error.toList⟩ ∧
    validate_query ⟨["bi_reports.users"], 10000⟩ "(SELECT 1" =
      ⟨true, none,
       ["Query must be a SELECT statement",
        "Query should include LIMIT clause for large result sets"]⟩ :=
  ⟨soft_checks_only_warn ⟨["bi_reports.users"], 10000⟩ "(SELECT 1"
    (by decide) (by decide) (by decide) (by decide),
   by decide⟩

/-! ### Facts about the execution gateway -/

theorem limitDb_honors (data : List Row) (cols : List String) :
    HonorsLimit (limitDb data cols) := by
  intro q' d c n hrun hparse
  replace hrun : DbOutcome.rows
      (List.take ((parseLimitVal q').getD data.length) data) cols =
      DbOutcome.rows d c := hrun
  rw [hparse] at hrun
  simp only [Option.getD_some] at hrun
  injection hrun with h1 h2
  subst h1
  simp [List.length_take]

/-- A five-row result set used to exercise the gateway. -/
def c1rows : List Row :=
  [[("A", "1")], [("A", "2")], [("A", "3")], [("A", "4")], [("A", "5")]]

/-- C1 counterexample: with a row cap of 2, a query that already carries
`LIMIT 4` is passed through unclamped, and the gateway returns 4 rows —
more than the cap — refuting "execute returns at most rowCap rows
regardless of whether the input SQL already contained a LIMIT". -/
theorem limit_not_clamped_counterexample :
    (execute_query (limitDb c1rows ["A"]) "SELECT A FROM T LIMIT 4"
      (some 2)).map DbSuccess.row_count = Except.ok 4 ∧ ¬ (4 ≤ 2) :=
  ⟨rfl, by decide⟩

/-- C1 (amended): the row cap is enforced only when the input SQL does not
already contain `LIMIT`: in that case `execute_query` appends
`LIMIT rowCap`, and any database engine that honours `LIMIT` returns at
most `rowCap` rows.  (A pre-existing `LIMIT` is left unchanged, see the
counterexample.) -/
theorem execute_caps_when_no_limit (db : Database) (q : String) (n : Nat)
    (r : DbSuccess) (hn : (n == 0) = false) (hdb : HonorsLimit db)
    (hL : pyContains (upperL (pyStrip q.toList)) LIMITl = false)
    (hok : execute_query db q (some n) = Except.ok r) :
    r.row_count ≤ n := by
  cases hqe : (pyStrip q.toList).isEmpty with
  | true =>
    unfold execute_query at hok
    rw [hqe] at hok
    simp at hok
  | false =>
    unfold execute_query at hok
    rw [hqe] at hok
    cases hk : dangerous_keywords_db.find?
        (fun k => pyContains (upperL (pyStrip q.toList)) k.toList) with
    | some k =>
      rw [hk] at hok
      simp at hok
    | none =>
      rw [hk] at hok
      have hfq : execFinalQuery q (some n) =
          pyStrip q.toList ++ ' ' :: (LIMITl ++ ' ' :: natDigits n) := by
        have hstep : execFinalQuery q (some n) =
            if (!(n == 0) && !(pyContains (upperL (pyStrip q.toList)) LIMITl))
                = true then
              pyStrip q.toList ++ ' ' :: (LIMITl ++ ' ' :: natDigits n)
            else pyStrip q.toList := rfl
        rw [hstep, hn, hL]
        rfl
      rw [hfq] at hok
      cases hrun : db.run
          (String.mk (pyStrip q.toList ++ ' ' :: (LIMITl ++ ' ' :: natDigits n))) with
      | rows data cols =>
        rw [hrun] at hok
        simp only [Bool.false_eq_true, if_false, Except.ok.injEq] at hok
        have hparse := parseLimitVal_appended (pyStrip q.toList) n hL
        have hlen := hdb _ data cols n hrun hparse
        rw [← hok]
        exact hlen
      | noRows =>
        rw [hrun] at hok
        simp only [Bool.false_eq_true, if_false, Except.ok.injEq] at hok
        rw [← hok]
        exact Nat.zero_le n
      | failure msg =>
        rw [hrun] at hok
        simp at hok

/-- Witness for C1 (amended): `SELECT A FROM T` with cap 3 against a
five-row table comes back with exactly 3 rows. -/
theorem execute_caps_when_no_limit_witness :
    pyContains (upperL (pyStrip "SELECT A FROM T".toList)) LIMITl = false ∧
    execute_query (limitDb c1rows ["A"]) "SELECT A FROM T" (some 3) =
      Except.ok ⟨true, c1rows.take 3, 3, ["A"], none⟩ ∧
    (⟨true, c1rows.take 3, 3, ["A"], none⟩ : DbSuccess).row_count ≤ 3 :=
  ⟨by decide, rfl,
   execute_caps_when_no_limit (limitDb c1rows ["A"]) "SELECT A FROM T" 3 _
     (by decide) (limitDb_honors c1rows ["A"]) (by decide) rfl⟩

/-- A database on which every execution fails. -/
def failDb : Database := ⟨fun _ => DbOutcome.failure "relation missing"⟩

/-- C2 counterexample: on a database-level failure `execute_query` raises a
`ValueError` (modelled as `Except.error`); it does not return a structured
`{success: false, errorReason}` result. -/
theorem exec_failure_raises_counterexample :
    execute_query failDb "SELECT A FROM T" none =
      Except.error "Query execution failed: relation missing" := rfl

/-- C2 (amended): on any database-level failure `execute_query` raises
`ValueError(f"Query execution failed: {e}")` past its boundary rather than
returning a structured failure; the structured user-visible error is only
produced by the topmost handler in the chat router. -/
theorem exec_failure_raises (db : Database) (q : String) (limit : Option Nat)
    (msg : String)
    (h1 : (pyStrip q.toList).isEmpty = false)
    (h2 : ∀ k ∈ dangerous_keywords_db,
        pyContains (upperL (pyStrip q.toList)) k.toList = false)
    (hfail : ∀ s, db.run s = DbOutcome.failure msg) :
    execute_query db q limit =
      Except.error ("Query execution failed: " ++ msg) := by
  have hnone : dangerous_keywords_db.find?
      (fun k => pyContains (upperL (pyStrip q.toList)) k.toList) = none := by
    rw [List.find?_eq_none]
    intro x hx
    rw [h2 x hx]
    simp
  unfold execute_query
  rw [h1, hnone, hfail]
  rfl

/-- Witness for C2 (amended): a failing database makes `execute_query`
raise for a clean `SELECT`. -/
theorem exec_failure_raises_witness :
    execute_query failDb "SELECT B FROM U" (some 5) =
      Except.error ("Query execution failed: " ++ "relation missing") :=
  exec_failure_raises failDb "SELECT B FROM U" (some 5) "relation missing"
    (by decide) (by decide) (fun _ => rfl)

/-! ### Facts about the generation orchestrator -/

theorem cacheGet_set_same (now later : Nat) (st : CacheSt) (k v : String)
    (ttl : Nat) (h : later < now + ttl) :
    cacheGet later (cacheSet now st k v ttl) k = some v := by
  unfold cacheGet cacheSet
  rw [List.find?_cons]
  have hk : (k == k) = true := beq_self_eq_true k
  simp only [hk]
  simp [h]

theorem isEmpty_false_of_ne {s : String} (h : s ≠ "") : s.isEmpty = false := by
  cases hb : s.isEmpty with
  | true => exact absurd ((String.isEmpty_iff s).mp hb) h
  | false => rfl

/-- The opaque fingerprint standing in for Python's salted `hash`. -/
def constHash : String → Int := fun _ => 42

/-- A completion service that always returns one fixed SQL text. -/
def llmConst : Option String → String → String :=
  fun _ _ => "SELECT x FROM bi_reports.users LIMIT 10"

/-- C4: a successful cache-miss `generate_sql` with a conversation id makes
exactly one completion call and persists the SQL under the generation key
with expiry `now + 3600` (the 1-hour TTL) — but writes nothing under the
conversation key: the turn is never appended, because
`_save_conversation_history` has no caller. -/
theorem generate_drops_conversation :
    (generate_sql constHash llmConst 0 [] "show users" (some "c1")).llm_calls
      = 1 ∧
    (generate_sql constHash llmConst 0 [] "show users" (some "c1")).state =
      [("sql_generation:42",
        ⟨"SELECT x FROM bi_reports.users LIMIT 10", 3600⟩)] ∧
    cacheGet 0
      (generate_sql constHash llmConst 0 [] "show users" (some "c1")).state
      "conversation:c1" = none := by
  decide

/-- A completion service that returns empty text (e.g. a whitespace-only
response collapsed by `.strip()`). -/
def llmEmpty : Option String → String → String := fun _ _ => ""

/-- C8 counterexample: when the completion service returns the empty string,
the cached value is falsy (`if cached_result:` fails on `""`), so a second
`generate_sql` with identical text well inside the TTL contacts the service
again: two calls, refuting "at most one call". -/
theorem generate_twice_empty_counterexample :
    (generate_sql constHash llmEmpty 0 [] "q" none).llm_calls = 1 ∧
    (generate_sql constHash llmEmpty 5
      (generate_sql constHash llmEmpty 0 [] "q" none).state "q" none).llm_calls
      = 1 := by
  decide

/-- C8 (amended): provided the completion service returns nonempty text for
the query, two `generate_sql` calls with identical text within the 3600s
generation-cache TTL issue at most one completion call in total, and when
the first call was the (cache-missing) generating one, the second returns
the same SQL from the cache with no external call. -/
theorem generate_twice_at_most_one_call (h : String → Int)
    (llm : Option String → String → String) (t1 t2 : Nat) (st : CacheSt)
    (q : String) (cid1 cid2 : Option String)
    (h12 : t1 ≤ t2) (hTTL : t2 < t1 + 3600)
    (hne : ∀ hist, llm hist q ≠ "") :
    (generate_sql h llm t1 st q cid1).llm_calls +
      (generate_sql h llm t2 (generate_sql h llm t1 st q cid1).state q
        cid2).llm_calls ≤ 1 ∧
    ((generate_sql h llm t1 st q cid1).llm_calls = 1 →
      (generate_sql h llm t2 (generate_sql h llm t1 st q cid1).state q
        cid2).sql = (generate_sql h llm t1 st q cid1).sql ∧
      (generate_sql h llm t2 (generate_sql h llm t1 st q cid1).state q
        cid2).llm_calls = 0) := by
  cases hc1 : truthyOpt
      (cacheGet t1 st ("sql_generation:" ++ toString (h q))) with
  | true =>
    have e1 : generate_sql h llm t1 st q cid1 =
        ⟨(cacheGet t1 st ("sql_generation:" ++ toString (h q))).getD "",
         st, 0⟩ := by
      unfold generate_sql
      rw [hc1]
      rfl
    rw [e1]
    cases hc2 : truthyOpt
        (cacheGet t2 st ("sql_generation:" ++ toString (h q))) with
    | true =>
      have e2 : generate_sql h llm t2 st q cid2 =
          ⟨(cacheGet t2 st ("sql_generation:" ++ toString (h q))).getD "",
           st, 0⟩ := by
        unfold generate_sql
        rw [hc2]
        rfl
      rw [e2]
      exact ⟨(by decide : (0 : Nat) + 0 ≤ 1), by intro hcon; simp at hcon⟩
    | false =>
      have e2 : generate_sql h llm t2 st q cid2 =
          ⟨llm (genHistory t2 st cid2) q,
           cacheSet t2 st ("sql_generation:" ++ toString (h q))
             (llm (genHistory t2 st cid2) q) 3600, 1⟩ := by
        unfold generate_sql
        rw [hc2]
        rfl
      rw [e2]
      exact ⟨(by decide : (0 : Nat) + 1 ≤ 1), by intro hcon; simp at hcon⟩
  | false =>
    have e1 : generate_sql h llm t1 st q cid1 =
        ⟨llm (genHistory t1 st cid1) q,
         cacheSet t1 st ("sql_generation:" ++ toString (h q))
           (llm (genHistory t1 st cid1) q) 3600, 1⟩ := by
      unfold generate_sql
      rw [hc1]
      rfl
    rw [e1]
    have hget : cacheGet t2
        (cacheSet t1 st ("sql_generation:" ++ toString (h q))
          (llm (genHistory t1 st cid1) q) 3600)
        ("sql_generation:" ++ toString (h q)) =
        some (llm (genHistory t1 st cid1) q) :=
      cacheGet_set_same t1 t2 st _ _ 3600 hTTL
    have htr : truthyOpt (cacheGet t2
        (cacheSet t1 st ("sql_generation:" ++ toString (h q))
          (llm (genHistory t1 st cid1) q) 3600)
        ("sql_generation:" ++ toString (h q))) = true := by
      rw [hget]
      show (!(llm (genHistory t1 st cid1) q).isEmpty) = true
      rw [isEmpty_false_of_ne (hne (genHistory t1 st cid1))]
      rfl
    have e2 : generate_sql h llm t2
        (cacheSet t1 st ("sql_generation:" ++ toString (h q))
          (llm (genHistory t1 st cid1) q) 3600) q cid2 =
        ⟨(cacheGet t2
            (cacheSet t1 st ("sql_generation:" ++ toString (h q))
              (llm (genHistory t1 st cid1) q) 3600)
            ("sql_generation:" ++ toString (h q))).getD "",
         cacheSet t1 st ("sql_generation:" ++ toString (h q))
           (llm (genHistory t1 st cid1) q) 3600, 0⟩ := by
      unfold generate_sql
      rw [htr]
      rfl
    rw [e2, hget]
    exact ⟨(by decide : (1 : Nat) + 0 ≤ 1), fun _ => ⟨rfl, rfl⟩⟩

/-- Witness for C8 (amended): a second call at time 10 for the same text
returns the SQL generated at time 0 without a second completion call. -/
theorem generate_twice_at_most_one_call_witness :
    (generate_sql constHash llmConst 0 [] "list users" none).llm_calls +
      (generate_sql constHash llmConst 10
        (generate_sql constHash llmConst 0 [] "list users" none).state
        "list users" none).llm_calls ≤ 1 ∧
    ((generate_sql constHash llmConst 0 [] "list users" none).llm_calls = 1 →
      (generate_sql constHash llmConst 10
        (generate_sql constHash llmConst 0 [] "list users" none).state
        "list users" none).sql =
        (generate_sql constHash llmConst 0 [] "list users" none).sql ∧
      (generate_sql constHash llmConst 10
        (generate_sql constHash llmConst 0 [] "list users" none).state
        "list users" none).llm_calls = 0) :=
  generate_twice_at_most_one_call constHash llmConst 0 10 [] "list users"
    none none (by omega) (by omega) (fun _ => by unfold llmConst; decide)

end SSA
